import Mathlib

/-!
Shallow embedding of the session-cache and file-system utilities of
`financial_assistant/streamlit/utilities_app.py`, together with proofs about
the cache lifecycle (`clear_cache`, `clear_directory`), recursive subtree
deletion (`delete_all_subdirectories`), the path-containment guard of
`display_directory_contents`, the cache-root derivation of
`initialize_session`, the output-saving helper (`save_output_callback`) and
the deferred-deletion scheduler (`schedule_temp_dir_deletion`).

File-system paths are modelled as lists of name components; directory trees
as a mutual inductive of entries and child lists (listing order preserved).
Fallible primitives (`os.unlink`, `shutil.rmtree`) are driven by an explicit
failure-injection set `fails`: an operation whose target path is in `fails`
raises, and a failed `rmtree` is modelled atomically (it leaves the subtree
unchanged).  Python `try`/`except` blocks are embedded at exactly the scope
they have in the source.
-/

namespace UtilitiesApp

/-- A file-system path, as the list of its name components relative to the
root of the modelled subtree. -/
abbrev FsPath := List String

mutual
/-- A directory entry of the modelled file system: a regular file or a
directory with named children. -/
inductive Entry where
  | file : Entry
  | dir : EntryList → Entry

/-- The children of a directory, in listing order (`os.listdir` order). -/
inductive EntryList where
  | nil : EntryList
  | cons : String → Entry → EntryList → EntryList
end

/-- True iff the entry is a regular file. -/
def Entry.isFileB : Entry → Bool
  | .file => true
  | .dir _ => false

/-- First entry with the given name, as `os.path` lookups resolve a name in
a directory. -/
def findEnt : EntryList → String → Option Entry
  | .nil, _ => none
  | .cons m e rest, n => if m = n then some e else findEnt rest n

/-- Whether the path denotes an existing directory below a root whose
children are `l` (the empty path denotes the root itself). -/
def isDirL (l : EntryList) : FsPath → Bool
  | [] => true
  | n :: rest =>
    match findEnt l n with
    | some (.dir cs) => isDirL cs rest
    | some .file => false
    | none => false

/-- Paths of all files in the subtree whose children are `l`, each prefixed
with `base`. -/
def filesUnderL (base : FsPath) : EntryList → List FsPath
  | .nil => []
  | .cons n .file rest => (base ++ [n]) :: filesUnderL base rest
  | .cons n (.dir cs) rest => filesUnderL (base ++ [n]) cs ++ filesUnderL base rest

/-- Warning text logged by `clear_directory` when deleting an item fails
(source line 436). -/
def errDeleting (p : FsPath) : String :=
  "Error deleting " ++ String.intercalate "/" p

/-- Warning text logged by `clear_directory` when the directory itself cannot
be processed (source line 438). -/
def errProcessing (p : FsPath) : String :=
  "Error processing directory " ++ String.intercalate "/" p

/-- Warning text logged by `clear_directory` on a non-existent directory
(source line 422). -/
def warnNoDirMsg (p : FsPath) : String :=
  "Directory does not exist: " ++ String.intercalate "/" p

/-- Embedding of the per-item loop of `clear_directory(directory,
delete_subdirectories)` (source lines 425-436) applied to the children of the
directory at `base`.  Files are unlinked; subdirectories are recursively
cleared and, when `del` is set, removed with `shutil.rmtree`.  Each item is
processed under its own `try`/`except`, so a failure keeps that item and
appends a warning while the remaining items are still processed.  Returns
the surviving children together with the log of warnings, in program
order. -/
def clearL (fails : List FsPath) (del : Bool) (base : FsPath) : EntryList → EntryList × List String
  | .nil => (.nil, [])
  | .cons n e rest =>
    let p := base ++ [n]
    let r := clearL fails del base rest
    match e with
    | .file =>
      if p ∈ fails then (.cons n .file r.fst, errDeleting p :: r.snd)
      else (r.fst, r.snd)
    | .dir cs =>
      let c := clearL fails del p cs
      if del then
        if p ∈ fails then (.cons n (.dir c.fst) r.fst, c.snd ++ errDeleting p :: r.snd)
        else (r.fst, c.snd ++ r.snd)
      else (.cons n (.dir c.fst) r.fst, c.snd ++ r.snd)

/-- Embedding of `clear_directory` (source lines 417-438) at a target path.
A missing target is a logged no-op; a plain file makes `os.listdir` raise,
which the outermost `except` turns into a logged warning; a directory has
its children cleared by the loop.  The function itself never raises: every
failure of a primitive is caught inside it. -/
def clear_directory (fails : List FsPath) (p : FsPath) (target : Option Entry) (del : Bool) :
    Option Entry × List String :=
  match target with
  | none => (none, [warnNoDirMsg p])
  | some .file => (some .file, [errProcessing p])
  | some (.dir cs) =>
    let r := clearL fails del p cs
    (some (.dir r.fst), r.snd)

/-- Embedding of `shutil.rmtree` on the entry currently at `p`: raises on a
missing path or a plain file, raises when the target path is in the failure
set (modelled atomically: the subtree is then left unchanged), and otherwise
removes the whole subtree. -/
def rmtreeE (fails : List FsPath) (p : FsPath) : Option Entry → Except String Unit
  | none => .error ("No such file or directory: " ++ String.intercalate "/" p)
  | some .file => .error ("Not a directory: " ++ String.intercalate "/" p)
  | some (.dir _) =>
    if p ∈ fails then .error (errDeleting p) else .ok ()

/-- Warning text logged by `clear_cache` when the cache directory does not
exist (source line 449); emitted only when `verbose` is set. -/
def warnNoCacheMsg (p : FsPath) : String :=
  "Cache directory does not exist: " ++ String.intercalate "/" p

/-- Info text logged by `clear_cache` after deleting the cache directory
(source line 462); emitted only when `verbose` is set. -/
def infoDeletedMsg (p : FsPath) : String :=
  "Successfully deleted cache directory: " ++ String.intercalate "/" p

/-- Embedding of `clear_cache(delete, verbose)` (source lines 441-464) acting
on the session cache directory at path `p` with current contents `root`
(`none` when the directory does not exist).  The body mirrors the source:
a missing root returns early, logging only when `verbose`; the recursive
clear runs under a `try` (it cannot raise, as `clear_directory` catches
internally); and when `delete` is set the final `shutil.rmtree` runs under
its own `try`, so its failure is logged rather than propagated.  The result
is the new contents of the cache path together with the log. -/
def clear_cache (fails : List FsPath) (p : FsPath) (root : Option Entry)
    (delete verbose : Bool) : Except String (Option Entry × List String) :=
  match root with
  | none => .ok (none, if verbose then [warnNoCacheMsg p] else [])
  | some e =>
    let r := clear_directory fails p (some e) delete
    if delete then
      match rmtreeE fails p r.fst with
      | .ok _ => .ok (none, r.snd ++ (if verbose then [infoDeletedMsg p] else []))
      | .error m => .ok (r.fst, r.snd ++ [m])
    else
      .ok r

/-- Embedding of the `os.walk` loop of `delete_all_subdirectories(directory,
exclude, verbose)` (source lines 544-554) over the children `l` of the
directory at `base`.  At each level every subdirectory whose path is not in
`exclude` is removed with `shutil.rmtree` (exceptions swallowed: a failed
removal leaves the directory in place, and the walk then descends into it,
exactly as `os.walk` descends into a still-existing directory); excluded
subdirectories survive and are walked into.  Files are never touched.
Removed subtrees are skipped by the walk (`os.walk` silently ignores the
listing error on a deleted directory). -/
def walkDelL (fails exclude : List FsPath) (base : FsPath) : EntryList → EntryList
  | .nil => .nil
  | .cons n e rest =>
    match e with
    | .file => .cons n .file (walkDelL fails exclude base rest)
    | .dir cs =>
      let p := base ++ [n]
      if p ∈ exclude then
        .cons n (.dir (walkDelL fails exclude p cs)) (walkDelL fails exclude base rest)
      else if p ∈ fails then
        .cons n (.dir (walkDelL fails exclude p cs)) (walkDelL fails exclude base rest)
      else
        walkDelL fails exclude base rest

/-- Embedding of `delete_all_subdirectories(directory, exclude, verbose)`
(source lines 535-554): walk the tree rooted at the given children and
remove every subdirectory not in `exclude`.  Paths in `exclude` are taken
relative to the walk root, matching the absolute `os.path.join(root,
dir_name)` strings of the source up to the shared root prefix. -/
def delete_all_subdirectories (fails exclude : List FsPath) (root : EntryList) : EntryList :=
  walkDelL fails exclude [] root

/-! Scheduler model.  `schedule_temp_dir_deletion` (source lines 521-532)
registers a job with the module-global `schedule` library and starts a
daemon thread that polls once a second while any job carries the
directory's tag.  The `schedule` library semantics embedded here: a job
made by `every(n).minutes.do(f).tag(t)` first becomes due `n*60` seconds
after registration, and after each run it is re-scheduled for
`now + n*60` — it is only removed if `f` returns `schedule.CancelJob`,
which `delete_temp_dir` never does. -/

/-- A registered `schedule` job: its period in seconds, the next time it is
due, and its tag (the temporary directory path, source line 524). -/
structure Job where
  periodSeconds : Nat
  nextRun : Nat
  tag : String

/-- State of the polling thread spawned by `schedule_temp_dir_deletion`:
current time in seconds, the registered jobs, whether the target directory
still exists, and how many times the deletion job has fired. -/
structure SchedulerState where
  now : Nat
  jobs : List Job
  dirExists : Bool
  fireCount : Nat

/-- Effect of `delete_temp_dir` (source lines 508-518) on the existence of
the target directory: removed when present, a silent no-op when absent.  In
either case the function returns `None`, never `schedule.CancelJob`. -/
def delete_temp_dir (_dirExists : Bool) : Bool := false

/-- Embedding of `schedule.run_pending()`: every due job runs (its run
calls `delete_temp_dir` on the target directory and bumps the fire count)
and is re-scheduled one period ahead; jobs that are not due are kept
unchanged.  No job is ever cancelled. -/
def runPending (s : SchedulerState) : SchedulerState :=
  SchedulerState.mk s.now
    (s.jobs.map fun j =>
      if j.nextRun ≤ s.now then Job.mk j.periodSeconds (s.now + j.periodSeconds) j.tag else j)
    (if s.jobs.any (fun j => decide (j.nextRun ≤ s.now)) then delete_temp_dir s.dirExists
     else s.dirExists)
    (s.fireCount + (s.jobs.filter (fun j => decide (j.nextRun ≤ s.now))).length)

/-- One iteration of the polling loop `while schedule.get_jobs(temp_dir):
run_pending(); sleep(1)` (source lines 526-529): if no job carries the tag
the thread exits (state unchanged), otherwise pending jobs run and one
second elapses. -/
def loopStep (tdir : String) (s : SchedulerState) : SchedulerState :=
  if (s.jobs.filter (fun j => decide (j.tag = tdir))).isEmpty then s
  else
    let s2 := runPending s
    SchedulerState.mk (s2.now + 1) s2.jobs s2.dirExists s2.fireCount

/-- Embedding of the registration line of `schedule_temp_dir_deletion`
(source line 524): `schedule.every(delay_minutes).minutes.do(delete_temp_dir,
...).tag(temp_dir)` appends a new job to the module-global job list; tagging
labels the job but performs no deduplication. -/
def registerDeletionJob (jobs : List Job) (tdir : String) (delayMinutes : Nat) (now : Nat) :
    List Job :=
  jobs ++ [Job.mk (delayMinutes * 60) (now + delayMinutes * 60) tdir]

/-- Embedding of `schedule.get_jobs(tag)`: the registered jobs carrying the
tag. -/
def get_jobs (jobs : List Job) (t : String) : List Job :=
  jobs.filter fun j => decide (j.tag = t)

/-- Initial state after `schedule_temp_dir_deletion(temp_dir, delay_minutes)`
is called on an empty scheduler at time 0 with the target directory present:
one tagged job due after `delay_minutes * 60` seconds, and the polling
thread about to start. -/
def schedule_temp_dir_deletion (tdir : String) (delayMinutes : Nat) : SchedulerState :=
  SchedulerState.mk 0 (registerDeletionJob [] tdir delayMinutes 0) true 0

/-- The scheduler state after `n` iterations of the polling loop following
`schedule_temp_dir_deletion(tdir, delayMinutes)`. -/
def runLoop (tdir : String) (delayMinutes : Nat) : Nat → SchedulerState
  | 0 => schedule_temp_dir_deletion tdir delayMinutes
  | n + 1 => loopStep tdir (runLoop tdir delayMinutes n)

/-! Path-containment guard of `display_directory_contents` (source lines
381-387).  `pathlib.Path.is_relative_to` is purely lexical: it succeeds iff
the parts of the ancestor are a leading segment of the parts of the
candidate, without resolving `..` components. -/

/-- Embedding of `pathlib.Path(p).is_relative_to(pathlib.Path(anc))` on
parsed path parts: a lexical leading-segment test. -/
def isRelativeTo (p anc : List String) : Bool :=
  anc.isPrefixOf p

/-- The path actually browsed by `display_directory_contents(path,
default_path)` (source lines 384-387): a candidate that is not
`is_relative_to` the default path is replaced by the default path. -/
def guardedPath (path default_path : List String) : List String :=
  if isRelativeTo path default_path then path else default_path

/-- Lexical resolution of `..` components, as performed by the operating
system when a path is actually used: each `..` removes the preceding
component (at the root it is a no-op). -/
def resolveParts (p : List String) : List String :=
  p.foldl (fun acc c => if c = ".." then acc.dropLast else acc ++ [c]) []

/-! Cache-root derivation of `initialize_session` (source lines 47-62).
Strings are modelled as lists of characters. -/

/-- Production-mode cache root (source lines 53-60):
`os.path.abspath(os.path.join(kit_dir, '../../scratch/financial_assistant/cache',
'cache_' + SESSION_ID))`.  `scratchCacheAbs` stands for the normalised
absolute prefix up to and including `.../cache`; the join appends a
separator, the literal `cache_` and the session identifier. -/
def prodCacheDir (scratchCacheAbs : List Char) (sessionId : List Char) : List Char :=
  scratchCacheAbs ++ ('/' :: "cache_".toList) ++ sessionId

/-- Non-production cache root (source line 52): `os.path.join(kit_dir,
'streamlit/cache')` — independent of the session identifier. -/
def defaultCacheDir (kitDir : List Char) : List Char :=
  kitDir ++ "/streamlit/cache".toList

/-! Output-saving helper `save_output_callback` (source lines 214-286) and
`save_simple_output` (source lines 288-331).  Python runtime values are
modelled by `PyVal`; floating-point responses are outside the model.
`pandas.Series` and `pandas.DataFrame` are abstracted to the string their
`to_json(orient='records')` produces.  Writes to the target file are
collected in program order as a list of appended chunks; an uncaught
exception is an `Except.error` (writes made before the exception are then
not reported, as the claims only concern the raised error). -/

/-- A Python runtime value, restricted to the types the helper can meet. -/
inductive PyVal where
  | str : String → PyVal
  | int : Int → PyVal
  | list : List PyVal → PyVal
  | dict : List (PyVal × PyVal) → PyVal
  | tuple : List PyVal → PyVal
  | set : List PyVal → PyVal
  | series : String → PyVal
  | dataframe : String → PyVal

/-- A Python exception raised by the helper. -/
inductive PyErr where
  | typeError : String → PyErr
  | valueError : String → PyErr
  | attributeError : String → PyErr
deriving DecidableEq

/-- True iff the value is a Python `set`. -/
def PyVal.isSet : PyVal → Bool
  | .set _ => true
  | _ => false

/-- The `isinstance` gate of `save_output_callback` (source line 222):
`isinstance(response, (str, list, dict, tuple, pandas.Series,
pandas.DataFrame))`.  Note that `set` (and `int`) are not accepted. -/
def acceptedResponse : PyVal → Bool
  | .str _ => true
  | .list _ => true
  | .dict _ => true
  | .tuple _ => true
  | .series _ => true
  | .dataframe _ => true
  | .int _ => false
  | .set _ => false

/-- The message of the `TypeError` raised at the gate (source lines
223-226), static part only (the stray period after "tuple" is in the
source). -/
def responseTypeMsg : String :=
  "Response must be a string, a list, a dictionary, a tuple. a series, or a dataframe."

/-- Python `str(value)` for values placed into a joined listing; the text of
composite values is abstracted. -/
def pyStrAny : PyVal → String
  | .str s => s
  | .int n => toString n
  | _ => "<object>"

/-- Embedding of the Python expression `v + '\n'`.  String concatenation
succeeds; adding a string to a tuple, list, dict, set or int raises
`TypeError`.  The pandas broadcast of `+` over a `Series`/`DataFrame` is not
modelled (such element types do not occur in the claims) and is abstracted
as a `TypeError` as well. -/
def pyAddNewline : PyVal → Except PyErr PyVal
  | .str s => .ok (.str (s ++ "\n"))
  | .int _ => .error (.typeError "unsupported operand type(s) for +: int and str")
  | .list _ => .error (.typeError "can only concatenate list (not \"str\") to list")
  | .tuple _ => .error (.typeError "can only concatenate tuple (not \"str\") to tuple")
  | .dict _ => .error (.typeError "unsupported operand type(s) for +: dict and str")
  | .set _ => .error (.typeError "unsupported operand type(s) for +: set and str")
  | .series _ => .error (.typeError "pandas broadcast not modelled")
  | .dataframe _ => .error (.typeError "pandas broadcast not modelled")

/-- Embedding of `save_simple_output(response, filename)` (source lines
288-331): strings and ints are written via `str()`; a `Series`/`DataFrame`
is written as its `to_json` string; any other value falls into the
`try response.to_dict()` branch, which fails for the remaining modelled
types and is caught (a UI warning, no file write).  Every branch then
appends the closing blank line, and the function never raises. -/
def save_simple_output : PyVal → List String
  | .str s => [s, "\n\n"]
  | .int n => [toString n, "\n\n"]
  | .series j => [j, "\n\n"]
  | .dataframe j => [j, "\n\n"]
  | _ => ["\n\n"]

/-- The list branch of `save_output_callback` (source lines 255-257): each
element is written as `elem + '\n'`; the concatenation is not under a `try`,
so its `TypeError` on a non-string element propagates. -/
def writeListLoop : List PyVal → Except PyErr (List String)
  | [] => .ok []
  | x :: rest =>
    match pyAddNewline x with
    | .error e => .error e
    | .ok v =>
      match writeListLoop rest with
      | .error e => .error e
      | .ok ws => .ok (save_simple_output v ++ ws)

/-- One dictionary value of the dict branch (source lines 261-270):
string/int values are written as `value + '\n'` (raising for ints), list
values as a comma-joined listing, `Series`/`DataFrame` values directly, and
anything else falls through to `save_simple_output(value)`. -/
def dictValueWrite : PyVal → Except PyErr (List String)
  | .str s => (pyAddNewline (.str s)).map save_simple_output
  | .int n => (pyAddNewline (.int n)).map save_simple_output
  | .list xs =>
    .ok (save_simple_output (.str (String.intercalate ", " (xs.map pyStrAny) ++ "." ++ "\n")))
  | .series j => .ok (save_simple_output (.series j))
  | .dataframe j => .ok (save_simple_output (.dataframe j))
  | v => .ok (save_simple_output v)

/-- The dict branch of `save_output_callback` (source lines 260-270),
iterating over the key-value pairs in order. -/
def writeDictLoop : List (PyVal × PyVal) → Except PyErr (List String)
  | [] => .ok []
  | (_, v) :: rest =>
    match dictValueWrite v with
    | .error e => .error e
    | .ok ws =>
      match writeDictLoop rest with
      | .error e => .error e
      | .ok ws2 => .ok (ws ++ ws2)

/-- The tuple branch of `save_output_callback` (source lines 273-275): the
loop body is `save_simple_output(response + '\n')` — it references the
whole tuple `response`, not the element — so each iteration first evaluates
`response + '\n'`, a tuple-plus-string concatenation. -/
def writeTupleLoop (whole : PyVal) : List PyVal → Except PyErr (List String)
  | [] => .ok []
  | _ :: rest =>
    match pyAddNewline whole with
    | .error e => .error e
    | .ok v =>
      match writeTupleLoop whole rest with
      | .error e => .error e
      | .ok ws => .ok (save_simple_output v ++ ws)

/-- Embedding of `save_output_callback(response, save_path, user_request)`
(source lines 214-286).  The `save_path` and `user_request` type checks of
the source always pass here because the model is typed.  After the gate, a
set response would be converted to a list (source lines 246-247; shown
unreachable below); the value is then dispatched by type.  The arm for a
value that escaped every earlier branch mirrors source line 277, whose
`pandas.DataFrame0` attribute lookup would raise `AttributeError` if ever
reached.  On success the result is the ordered list of chunks appended to
the file. -/
def save_output_callback (response : PyVal) (save_path : String)
    (user_request : Option String) : Except PyErr (List String) :=
  if acceptedResponse response = false then .error (.typeError responseTypeMsg)
  else
    let opening : List String :=
      "\n\n" :: (match user_request with
        | some u => [u, "\n\n"]
        | none => [])
    let response2 : PyVal :=
      match response with
      | .set xs => .list xs
      | r => r
    let bodyE : Except PyErr (List String) :=
      match response2 with
      | .str s => .ok (save_simple_output (.str s))
      | .int n => .ok (save_simple_output (.int n))
      | .series j => .ok (save_simple_output (.series j))
      | .dataframe j => .ok (save_simple_output (.dataframe j))
      | .list xs => writeListLoop xs
      | .dict kvs => writeDictLoop kvs
      | .tuple xs => writeTupleLoop (.tuple xs) xs
      | .set _ => .error (.attributeError "module pandas has no attribute DataFrame0")
    match bodyE with
    | .error e => .error e
    | .ok ws =>
      let _ := save_path
      .ok (opening ++ ws ++ ["\n\n"])

/-! Theorems. -/

/-- C10: a set-typed response is rejected by the `isinstance` gate of
`save_output_callback` with a `TypeError` (set is not among the accepted
types), and no value passing the gate is a set, so the later set-to-list
conversion branch is unreachable. -/
theorem set_response_rejected :
    ∀ (xs : List PyVal) (sp : String) (ur : Option String),
      save_output_callback (.set xs) sp ur = .error (.typeError responseTypeMsg) ∧
      (∀ v : PyVal, acceptedResponse v = true → v.isSet = false) := by
  intro xs sp ur
  refine ⟨rfl, ?_⟩
  intro v hv
  cases v <;> simp_all [acceptedResponse, PyVal.isSet]

/-- Witness for C10 at concrete inputs. -/
theorem set_response_rejected_witness :
    save_output_callback (.set []) "out.txt" none = .error (.typeError responseTypeMsg) ∧
    (PyVal.str "a").isSet = false :=
  ⟨(set_response_rejected [] "out.txt" none).1,
   (set_response_rejected [] "out.txt" none).2 (.str "a") rfl⟩

/-- C8 counterexample: contrary to the claim that a tuple-typed response is
written out as the whole tuple once per element, the call raises
`TypeError` on the first loop iteration — the loop body evaluates
`response + '\n'`, a tuple-plus-string concatenation — and writes no
element at all. -/
theorem tuple_branch_counterexample :
    save_output_callback (.tuple [.str "a"]) "out.txt" none =
      .error (.typeError "can only concatenate tuple (not \"str\") to tuple") := rfl

/-- C8 amended: for every non-empty tuple-typed response,
`save_output_callback` raises `TypeError` when evaluating `response + '\n'`
in the tuple branch (the body does reference the whole tuple rather than
the element, but the concatenation fails before anything is written). -/
theorem tuple_branch_raises :
    ∀ (xs : List PyVal) (sp : String) (ur : Option String), xs ≠ [] →
      save_output_callback (.tuple xs) sp ur =
        .error (.typeError "can only concatenate tuple (not \"str\") to tuple") := by
  intro xs sp ur h
  cases xs with
  | nil => exact absurd rfl h
  | cons x rest => rfl

/-- Witness for C8's amended theorem at concrete inputs. -/
theorem tuple_branch_raises_witness :
    save_output_callback (.tuple [.int 1, .int 2]) "a.txt" (some "query") =
      .error (.typeError "can only concatenate tuple (not \"str\") to tuple") :=
  tuple_branch_raises [.int 1, .int 2] "a.txt" (some "query") (List.cons_ne_nil _ _)

/-- C2 counterexample: calling `schedule_temp_dir_deletion` twice with the
same path leaves two active jobs tagged with that path — tagging does not
prevent duplicate scheduling. -/
theorem duplicate_job_counterexample :
    (get_jobs (registerDeletionJob (registerDeletionJob [] "P" 1 0) "P" 1 0) "P").length = 2 :=
  rfl

/-- C2 amended: each call of `schedule_temp_dir_deletion` appends one more
job carrying the path's tag to the module-global job list; tags only label
jobs for `get_jobs` lookup (used by the polling loop), they never
deduplicate, so repeated calls for the same path accumulate active jobs. -/
theorem register_appends_tagged_job :
    ∀ (jobs : List Job) (t : String) (d now : Nat),
      (get_jobs (registerDeletionJob jobs t d now) t).length =
        (get_jobs jobs t).length + 1 := by
  intro jobs t d now
  simp [get_jobs, registerDeletionJob, List.filter_append]

/-- C5 counterexample: with the default `verbose=False`, `clear_cache` on a
non-existent cache root is a silent no-op — nothing is logged, contrary to
the claim's "(logged)". -/
theorem clear_cache_silent_noop_counterexample :
    clear_cache [] ["cache"] none false false = .ok (none, []) := rfl

/-- C5 amended: `clear_cache` never propagates an error to its caller for
any failure set, cache contents and flags; on a non-existent root it is a
no-op that logs only when `verbose` is set; every modelled filesystem error
during clearing or deleting is caught and logged rather than surfaced. -/
theorem clear_cache_never_raises :
    ∀ (fails : List FsPath) (p : FsPath) (root : Option Entry) (d v : Bool),
      (∃ out, clear_cache fails p root d v = .ok out) ∧
      clear_cache fails p none d false = .ok (none, []) ∧
      clear_cache fails p none d true = .ok (none, [warnNoCacheMsg p]) := by
  intro fails p root d v
  refine ⟨?_, rfl, rfl⟩
  cases root with
  | none => exact ⟨_, rfl⟩
  | some e =>
    cases d with
    | false => exact ⟨_, rfl⟩
    | true =>
      rcases hr : rmtreeE fails p (clear_directory fails p (some e) true).1 with m | u
      · exact ⟨((clear_directory fails p (some e) true).1,
            (clear_directory fails p (some e) true).2 ++ [m]), by simp [clear_cache, hr]⟩
      · exact ⟨(none, (clear_directory fails p (some e) true).2 ++
            (if v then [infoDeletedMsg p] else [])), by simp [clear_cache, hr]⟩

/-- C6 counterexample: the containment guard of
`display_directory_contents` is purely lexical, so a candidate containing
`..` passes the check yet resolves outside the default path: browsing is
not restricted to paths that resolve under the default path. -/
theorem containment_guard_counterexample :
    guardedPath ["cache", "..", "etc"] ["cache"] = ["cache", "..", "etc"] ∧
    ¬ (resolveParts ["cache"] <+: resolveParts (guardedPath ["cache", "..", "etc"] ["cache"])) := by
  constructor
  · rfl
  · decide

/-- Resolution is the identity on paths without `..` components. -/
theorem resolveParts_no_dotdot :
    ∀ (l acc : List String), ".." ∉ l →
      l.foldl (fun acc c => if c = ".." then acc.dropLast else acc ++ [c]) acc = acc ++ l := by
  intro l
  induction l with
  | nil => intro acc _; simp
  | cons c cs ih =>
    intro acc h
    have hc : c ≠ ".." := fun hc => h (hc ▸ List.mem_cons_self c cs)
    have hcs : ".." ∉ cs := fun hm => h (List.mem_cons_of_mem c hm)
    simp only [List.foldl_cons, if_neg (fun hh : c = ".." => hc hh)]
    rw [ih (acc ++ [c]) hcs, List.append_assoc, List.singleton_append]

/-- C6 amended: the guard enforces lexical containment — the browsed path
always has the default path's components as a leading segment (a candidate
failing the test is replaced by the default path); for candidate and
default paths free of `..` components this lexical containment coincides
with resolved containment. -/
theorem containment_guard_lexical :
    ∀ (p d : List String),
      isRelativeTo (guardedPath p d) d = true ∧
      (".." ∉ p → ".." ∉ d → resolveParts d <+: resolveParts (guardedPath p d)) := by
  intro p d
  have hself : isRelativeTo d d = true :=
    List.isPrefixOf_iff_prefix.mpr (List.prefix_refl d)
  by_cases h : isRelativeTo p d = true
  · have hgp : guardedPath p d = p := by simp [guardedPath, h]
    refine ⟨by rw [hgp]; exact h, ?_⟩
    intro hp hd
    have hpre : d <+: p := List.isPrefixOf_iff_prefix.mp h
    have e1 : resolveParts p = p := by
      simpa [resolveParts] using resolveParts_no_dotdot p [] hp
    have e2 : resolveParts d = d := by
      simpa [resolveParts] using resolveParts_no_dotdot d [] hd
    rw [hgp, e1, e2]
    exact hpre
  · have hgp : guardedPath p d = d := by simp [guardedPath, h]
    refine ⟨by rw [hgp]; exact hself, ?_⟩
    intro _ _
    rw [hgp]

/-- Witness for C6's amended theorem at concrete inputs. -/
theorem containment_guard_lexical_witness :
    isRelativeTo (guardedPath ["cache", "sub"] ["cache"]) ["cache"] = true ∧
    resolveParts ["cache"] <+: resolveParts (guardedPath ["cache", "sub"] ["cache"]) :=
  ⟨(containment_guard_lexical ["cache", "sub"] ["cache"]).1,
   (containment_guard_lexical ["cache", "sub"] ["cache"]).2 (by decide) (by decide)⟩

/-- C7 counterexample: over arbitrary session identifiers the claim fails —
for identifiers "a" and "ab" the derived production-mode cache root of the
first is a strict prefix of that of the second. -/
theorem cache_root_prefix_counterexample :
    prodCacheDir "/x".toList "a".toList <+: prodCacheDir "/x".toList "ab".toList ∧
    ("a".toList : List Char) ≠ "ab".toList := by
  constructor
  · decide
  · decide

/-- C7 amended: in production mode, for distinct session identifiers of
equal length (as the 36-character `uuid4` strings generated by
`initialize_session` always are), the derived cache roots are distinct and
neither is a prefix of the other; distinctness alone holds for any distinct
identifiers, while in non-production mode the cache root does not depend on
the session identifier at all. -/
theorem cache_root_injective_nonprefix :
    ∀ (base s1 s2 : List Char), s1 ≠ s2 → s1.length = s2.length →
      prodCacheDir base s1 ≠ prodCacheDir base s2 ∧
      ¬ (prodCacheDir base s1 <+: prodCacheDir base s2) ∧
      ¬ (prodCacheDir base s2 <+: prodCacheDir base s1) := by
  intro base s1 s2 hne hlen
  refine ⟨?_, ?_, ?_⟩
  · intro h
    exact hne (List.append_cancel_left h)
  · intro h
    rw [prodCacheDir, prodCacheDir, List.append_assoc, List.append_assoc,
      List.prefix_append_right_inj, List.prefix_append_right_inj] at h
    exact hne (h.eq_of_length hlen)
  · intro h
    rw [prodCacheDir, prodCacheDir, List.append_assoc, List.append_assoc,
      List.prefix_append_right_inj, List.prefix_append_right_inj] at h
    exact hne (h.eq_of_length hlen.symm).symm

/-- Witness for C7's amended theorem at concrete inputs. -/
theorem cache_root_injective_nonprefix_witness :
    prodCacheDir [] "a".toList ≠ prodCacheDir [] "b".toList ∧
    ¬ (prodCacheDir [] "a".toList <+: prodCacheDir [] "b".toList) ∧
    ¬ (prodCacheDir [] "b".toList <+: prodCacheDir [] "a".toList) :=
  cache_root_injective_nonprefix [] "a".toList "b".toList (by decide) (by decide)

/-- Closed form of the polling loop after `schedule_temp_dir_deletion("P", 0)`:
from the first iteration on, the directory is gone, the job is still
registered (and due again at once), and the job has fired once per
iteration. -/
theorem runLoop_delay0_closed :
    ∀ n : Nat, runLoop "P" 0 (n + 1) =
      SchedulerState.mk (n + 1) [Job.mk 0 n "P"] false (n + 1) := by
  intro n
  induction n with
  | zero => rfl
  | succ k ih =>
    show loopStep "P" (runLoop "P" 0 (k + 1)) = _
    rw [ih]
    simp [loopStep, runPending, delete_temp_dir, Nat.le_succ]

/-- C1: evaluation of the model at the failing input `delay_minutes = 0`,
path "P": the directory is indeed removed within one polling iteration, but
the job is never cancelled — it re-fires on every iteration (the fire count
equals the iteration count) and the tagged job list never empties, so the
polling loop's exit condition never becomes true and the thread never
self-terminates.  The loop `while schedule.get_jobs(temp_dir)` shows the
author expected the job to disappear after firing; it does not. -/
theorem schedule_deletion_refires :
    ∀ n : Nat,
      (runLoop "P" 0 (n + 1)).dirExists = false ∧
      (runLoop "P" 0 n).jobs.length = 1 ∧
      (runLoop "P" 0 n).fireCount = n := by
  intro n
  refine ⟨by rw [runLoop_delay0_closed n], ?_, ?_⟩
  · cases n with
    | zero => rfl
    | succ k => rw [runLoop_delay0_closed k]; rfl
  · cases n with
    | zero => rfl
    | succ k => rw [runLoop_delay0_closed k]

/-! Lemmas about `delete_all_subdirectories` (claim C3). -/

/-- How a surviving entry found under an excluded name was transformed by
the walk. -/
def walkKeepMap (exclude : List FsPath) (p : FsPath) : Entry → Entry
  | .file => .file
  | .dir cs => .dir (walkDelL [] exclude p cs)

/-- If the child path `base ++ [n]` is not excluded, any entry still found
under the name `n` after the walk is a file: every directory under a
non-excluded name at this level was removed. -/
theorem walkDel_drop_find :
    ∀ (exclude : List FsPath) (base : FsPath) (n : String) (l : EntryList) (e : Entry),
      base ++ [n] ∉ exclude →
      findEnt (walkDelL [] exclude base l) n = some e → e = .file
  | exclude, base, n, .nil, e, _, hf => by simp [walkDelL, findEnt] at hf
  | exclude, base, n, .cons m ent rest, e, hx, hf => by
    cases ent with
    | file =>
      by_cases hmn : m = n
      · simp [walkDelL, findEnt, hmn] at hf
        exact hf.symm
      · simp only [walkDelL, findEnt, if_neg hmn] at hf
        exact walkDel_drop_find exclude base n rest e hx hf
    | dir cs =>
      by_cases hm : base ++ [m] ∈ exclude
      · have hmn : m ≠ n := fun hEq => hx (hEq ▸ hm)
        simp only [walkDelL] at hf
        rw [if_pos hm] at hf
        simp only [findEnt, if_neg hmn] at hf
        exact walkDel_drop_find exclude base n rest e hx hf
      · simp only [walkDelL] at hf
        rw [if_neg hm] at hf
        simp only [List.not_mem_nil, if_false] at hf
        exact walkDel_drop_find exclude base n rest e hx hf

/-- If the child path `base ++ [n]` is excluded, the walk preserves the
first entry found under the name `n`, with its subtree walked in turn. -/
theorem walkDel_keep_find :
    ∀ (exclude : List FsPath) (base : FsPath) (n : String) (l : EntryList),
      base ++ [n] ∈ exclude →
      findEnt (walkDelL [] exclude base l) n =
        (findEnt l n).map (walkKeepMap exclude (base ++ [n]))
  | exclude, base, n, .nil, _ => by simp [walkDelL, findEnt]
  | exclude, base, n, .cons m ent rest, hx => by
    cases ent with
    | file =>
      by_cases hmn : m = n
      · simp [walkDelL, findEnt, hmn, walkKeepMap]
      · simp only [walkDelL, findEnt, if_neg hmn]
        exact walkDel_keep_find exclude base n rest hx
    | dir cs =>
      by_cases hmn : m = n
      · subst hmn
        simp only [walkDelL]
        rw [if_pos hx]
        simp [findEnt, walkKeepMap]
      · by_cases hm : base ++ [m] ∈ exclude
        · simp only [walkDelL]
          rw [if_pos hm]
          simp only [findEnt, if_neg hmn]
          exact walkDel_keep_find exclude base n rest hx
        · simp only [walkDelL]
          rw [if_neg hm]
          simp only [List.not_mem_nil, if_false, findEnt, if_neg hmn]
          exact walkDel_keep_find exclude base n rest hx

/-- Inversion for `isDirL` on a non-empty path. -/
theorem isDirL_cons_inv :
    ∀ (l : EntryList) (n : String) (rest : FsPath),
      isDirL l (n :: rest) = true →
      ∃ cs, findEnt l n = some (.dir cs) ∧ isDirL cs rest = true := by
  intro l n rest h
  simp only [isDirL] at h
  rcases hfe : findEnt l n with _ | e
  · rw [hfe] at h
    simp at h
  · rw [hfe] at h
    cases e with
    | file => simp at h
    | dir cs => exact ⟨cs, rfl, h⟩

/-- A directory whose path has some non-excluded non-empty leading segment
is removed by the walk (it is deleted together with its topmost
non-excluded ancestor, or directly). -/
theorem walkDel_removes :
    ∀ (exclude : List FsPath) (p base : FsPath) (l : EntryList),
      p ≠ [] → isDirL l p = true →
      (∃ k, 1 ≤ k ∧ k ≤ p.length ∧ base ++ p.take k ∉ exclude) →
      isDirL (walkDelL [] exclude base l) p = false
  | exclude, [], _, _, hne, _, _ => absurd rfl hne
  | exclude, n :: rest, base, l, _, hdir, ⟨k, hk1, hk2, hkex⟩ => by
    obtain ⟨cs, hfe, hcs⟩ := isDirL_cons_inv l n rest hdir
    by_cases hn : base ++ [n] ∈ exclude
    · have hk_ne1 : k ≠ 1 := by
        intro h1
        subst h1
        have ht : (n :: rest).take 1 = [n] := rfl
        rw [ht] at hkex
        exact hkex hn
      obtain ⟨k2, rfl⟩ : ∃ k2, k = k2 + 1 := ⟨k - 1, by omega⟩
      have hk21 : 1 ≤ k2 := by omega
      have hklen : k2 ≤ rest.length := by
        simp only [List.length_cons] at hk2
        omega
      have hrest_ne : rest ≠ [] := by
        intro hl
        subst hl
        simp at hklen
        omega
      have hf2 : findEnt (walkDelL [] exclude base l) n =
          some (.dir (walkDelL [] exclude (base ++ [n]) cs)) := by
        rw [walkDel_keep_find exclude base n l hn, hfe]
        rfl
      simp only [isDirL, hf2]
      refine walkDel_removes exclude rest (base ++ [n]) cs hrest_ne hcs ⟨k2, hk21, hklen, ?_⟩
      have hsh : base ++ (n :: rest).take (k2 + 1) = (base ++ [n]) ++ rest.take k2 := by
        rw [List.take_succ_cons, List.append_cons]
      rw [hsh] at hkex
      exact hkex
    · rcases hfe2 : findEnt (walkDelL [] exclude base l) n with _ | e
      · simp [isDirL, hfe2]
      · have he : e = .file := walkDel_drop_find exclude base n l e hn hfe2
        subst he
        simp [isDirL, hfe2]

/-- A directory all of whose non-empty path segments are excluded survives
the walk. -/
theorem walkDel_preserves :
    ∀ (exclude : List FsPath) (p base : FsPath) (l : EntryList),
      isDirL l p = true →
      (∀ k, 1 ≤ k → k ≤ p.length → base ++ p.take k ∈ exclude) →
      isDirL (walkDelL [] exclude base l) p = true
  | exclude, [], _, _, _, _ => rfl
  | exclude, n :: rest, base, l, hdir, hall => by
    obtain ⟨cs, hfe, hcs⟩ := isDirL_cons_inv l n rest hdir
    have hn : base ++ [n] ∈ exclude := by
      have h1 := hall 1 (le_refl 1) (by simp)
      have ht : (n :: rest).take 1 = [n] := rfl
      rw [ht] at h1
      exact h1
    have hf2 : findEnt (walkDelL [] exclude base l) n =
        some (.dir (walkDelL [] exclude (base ++ [n]) cs)) := by
      rw [walkDel_keep_find exclude base n l hn, hfe]
      rfl
    simp only [isDirL, hf2]
    refine walkDel_preserves exclude rest (base ++ [n]) cs hcs ?_
    intro k hkk1 hkk2
    have h2 := hall (k + 1) (by omega) (by simp only [List.length_cons]; omega)
    rw [List.take_succ_cons, List.append_cons] at h2
    exact h2

/-- A sample tree with a directory `a` containing a directory `b`. -/
def nestedSample : EntryList :=
  .cons "a" (.dir (.cons "b" (.dir .nil) .nil)) .nil

/-- C3 counterexample: with `exclude = {a/b}` the excluded directory `a/b`,
nested one level below a non-excluded ancestor, is removed anyway — it goes
down with the `rmtree` of its ancestor `a`, contradicting "never removes X
even when X is nested several levels deep". -/
theorem nested_exclusion_counterexample :
    isDirL nestedSample ["a", "b"] = true ∧
    (["a", "b"] : FsPath) ∈ [(["a", "b"] : FsPath)] ∧
    isDirL (delete_all_subdirectories [] [["a", "b"]] nestedSample) ["a", "b"] = false := by
  refine ⟨rfl, ?_, rfl⟩
  simp

/-- C3 amended: `delete_all_subdirectories` removes every subdirectory (of
non-empty path) whose path is not in `exclude`; an excluded directory `X`
is preserved precisely when every non-empty leading segment of its path is
also in `exclude` — in particular a direct child of the root that is in
`exclude` always survives, but an `X` below a non-excluded ancestor is
removed together with that ancestor. -/
theorem delete_all_subdirectories_exclusion :
    ∀ (exclude : List FsPath) (l : EntryList) (p : FsPath),
      (p ≠ [] → isDirL l p = true → p ∉ exclude →
        isDirL (delete_all_subdirectories [] exclude l) p = false) ∧
      (isDirL l p = true →
        (∀ k, 1 ≤ k → k ≤ p.length → p.take k ∈ exclude) →
        isDirL (delete_all_subdirectories [] exclude l) p = true) := by
  intro exclude l p
  constructor
  · intro hne hdir hnx
    refine walkDel_removes exclude p [] l hne hdir ⟨p.length, ?_, le_refl _, ?_⟩
    · cases p with
      | nil => exact absurd rfl hne
      | cons a t => simp
    · rw [List.take_length, List.nil_append]
      exact hnx
  · intro hdir hall
    refine walkDel_preserves exclude p [] l hdir ?_
    intro k hk1 hk2
    rw [List.nil_append]
    exact hall k hk1 hk2

/-- Witness for C3's amended theorem: a non-excluded direct child is
removed; an excluded direct child is preserved. -/
theorem delete_all_subdirectories_exclusion_witness :
    isDirL (delete_all_subdirectories [] [] nestedSample) ["a"] = false ∧
    isDirL (delete_all_subdirectories [] [(["a"] : FsPath)] nestedSample) ["a"] = true := by
  constructor
  · exact (delete_all_subdirectories_exclusion [] nestedSample ["a"]).1
      (by simp) rfl (by simp)
  · refine (delete_all_subdirectories_exclusion [["a"]] nestedSample ["a"]).2 rfl ?_
    intro k hk1 hk2
    have hk : k = 1 := by
      simp only [List.length_singleton] at hk2
      omega
    subst hk
    simp

/-- With no failures, clearing without subdirectory removal leaves no file
anywhere in the subtree. -/
theorem clearL_no_files :
    ∀ (base : FsPath) (l : EntryList),
      filesUnderL base (clearL [] false base l).fst = []
  | _, .nil => rfl
  | base, .cons n .file rest => by
    have ih := clearL_no_files base rest
    simp [clearL, ih]
  | base, .cons n (.dir cs) rest => by
    have ih1 := clearL_no_files (base ++ [n]) cs
    have ih2 := clearL_no_files base rest
    simp [clearL, filesUnderL, ih1, ih2]

/-- The scenario root of C4: `sources/doc1.txt` and `figures/chart.png`. -/
def scenarioRoot : EntryList :=
  .cons "sources" (.dir (.cons "doc1.txt" .file .nil))
    (.cons "figures" (.dir (.cons "chart.png" .file .nil)) .nil)

/-- The scenario root after `clear_cache(delete=False)`: both files gone,
the two subdirectories left as empty shells. -/
def scenarioCleared : EntryList :=
  .cons "sources" (.dir .nil) (.cons "figures" (.dir .nil) .nil)

/-- C4: with no filesystem failures, `clear_cache(delete=True)` leaves the
cache root absent, and `clear_cache(delete=False)` leaves it present with
no files anywhere below it (empty subdirectory shells may remain).  In the
concrete scenario — root containing `sources/doc1.txt` and
`figures/chart.png` — `clear_cache(delete=False)` leaves the root present
and free of files, and a subsequent `clear_cache(delete=True)` on the
now-empty root leaves it absent, raising no exception. -/
theorem clear_cache_empties_and_deletes :
    ∀ (cs : EntryList) (p : FsPath) (v : Bool),
      (∃ logs, clear_cache [] p (some (.dir cs)) true v = .ok (none, logs)) ∧
      (∃ cs2 logs,
        clear_cache [] p (some (.dir cs)) false v = .ok (some (.dir cs2), logs) ∧
        filesUnderL p cs2 = []) ∧
      (clear_cache [] ["cache_A"] (some (.dir scenarioRoot)) false false =
          .ok (some (.dir scenarioCleared), []) ∧
        clear_cache [] ["cache_A"] (some (.dir scenarioCleared)) true false =
          .ok (none, [])) := by
  intro cs p v
  refine ⟨⟨(clearL [] true p cs).snd ++ (if v then [infoDeletedMsg p] else []), ?_⟩,
    ⟨(clearL [] false p cs).fst, (clearL [] false p cs).snd, rfl, clearL_no_files p cs⟩,
    rfl, rfl⟩
  simp [clear_cache, clear_directory, rmtreeE]

/-- C9: clearing a directory with one failing (locked) file removes every
other file — any file still present anywhere below the directory after the
clear is the failing one — and the failure is caught and logged as a
warning whenever the failing file was among the directory's files. -/
theorem clearL_isolates_failures :
    ∀ (base : FsPath) (l : EntryList) (bad : FsPath),
      (∀ q, q ∈ filesUnderL base (clearL [bad] false base l).fst → q = bad) ∧
      (bad ∈ filesUnderL base l → errDeleting bad ∈ (clearL [bad] false base l).snd)
  | base, .nil, bad => by
    constructor
    · intro q hq
      simp [clearL, filesUnderL] at hq
    · intro h
      simp [filesUnderL] at h
  | base, .cons n .file rest, bad => by
    have ih := clearL_isolates_failures base rest bad
    by_cases hpb : base ++ [n] = bad
    · constructor
      · intro q hq
        simp [clearL, hpb, filesUnderL] at hq
        rcases hq with h1 | h2
        · exact h1
        · exact ih.1 q h2
      · intro _
        simp [clearL, hpb]
    · constructor
      · intro q hq
        simp [clearL, hpb] at hq
        exact ih.1 q hq
      · intro hmem
        simp only [filesUnderL, List.mem_cons] at hmem
        rcases hmem with h1 | h2
        · exact absurd h1.symm hpb
        · have hlog := ih.2 h2
          simpa [clearL, hpb] using hlog
  | base, .cons n (.dir cs) rest, bad => by
    have ih1 := clearL_isolates_failures (base ++ [n]) cs bad
    have ih2 := clearL_isolates_failures base rest bad
    constructor
    · intro q hq
      simp only [clearL, filesUnderL, List.mem_append] at hq
      rcases hq with h1 | h2
      · exact ih1.1 q h1
      · exact ih2.1 q h2
    · intro hmem
      simp only [filesUnderL, List.mem_append] at hmem
      have hsnd : (clearL [bad] false base (.cons n (.dir cs) rest)).snd =
          (clearL [bad] false (base ++ [n]) cs).snd ++ (clearL [bad] false base rest).snd := by
        simp [clearL]
      rw [hsnd, List.mem_append]
      rcases hmem with h1 | h2
      · exact Or.inl (ih1.2 h1)
      · exact Or.inr (ih2.2 h2)

/-- A directory with one locked file among three. -/
def lockedSample : EntryList :=
  .cons "good.txt" .file (.cons "locked.txt" .file (.cons "more.txt" .file .nil))

/-- Witness for C9 at a concrete directory: after clearing with
`locked.txt` failing, the only file below the directory is the locked one,
and the failure was logged. -/
theorem clearL_isolates_failures_witness :
    (["locked.txt"] : FsPath) = ["locked.txt"] ∧
    errDeleting ["locked.txt"] ∈ (clearL [["locked.txt"]] false [] lockedSample).snd :=
  ⟨(clearL_isolates_failures [] lockedSample ["locked.txt"]).1 ["locked.txt"] (by decide),
   (clearL_isolates_failures [] lockedSample ["locked.txt"]).2 (by decide)⟩

end UtilitiesApp
